import Mathlib

/-!
Shallow embedding of the camera-follow plugin (`src/plugins/Follow.ts`).

The plugin's `update(elapsed)` method is modelled as a pure function from a
`Follow` state (options, velocity, paused flag, target position, viewport
center and the viewport's canvas-to-world conversion) to an `UpdateResult`
(the viewport center after the frame, the velocity state after the frame, and
whether `moveCenter` was called together with a `moved` event of type
`follow`).  JavaScript numbers are modelled as real numbers (exact
arithmetic); JavaScript truthiness tests on `number | null` fields are
modelled by `Truthy` on `Option ℝ`; `Math.atan2`, `Math.cos`, `Math.sin`,
`Math.sqrt`, `Math.abs`, `Math.min`, `Math.max` become `atan2` (defined via
`Complex.arg`), `Real.cos`, `Real.sin`, `Real.sqrt`, `|·|`, `min`, `max`.
-/

namespace PixiFollow

/-- A 2D point (`PointData` in the source). -/
structure Point where
  x : ℝ
  y : ℝ

/-- `Math.atan2 y x` is the argument of the complex number `x + y·i`. -/
noncomputable def atan2 (y x : ℝ) : ℝ := Complex.arg ⟨x, y⟩

/-- JavaScript truthiness of a `number | null` value (`NaN` is outside the
real-number model): `null` and `0` are falsy, every other number is truthy. -/
def Truthy : Option ℝ → Prop
  | none => False
  | some a => a ≠ 0

noncomputable instance : DecidablePred Truthy := fun o =>
  match o with
  | none => isFalse id
  | some a => inferInstanceAs (Decidable (a ≠ 0))

/-- The resolved options of the plugin (`Required<IFollowOptions>`, except
that `followPoint` is an `Option` because `setFollowPoint` can store `null`
through the `as any` cast in the source). -/
structure FollowResolvedOptions where
  speed : ℝ
  acceleration : Option ℝ
  radius : Option ℝ
  followPoint : Option Point

/-- `DEFAULT_FOLLOW_OPTIONS` from the source (lines 40-45): `speed: 0`,
`acceleration: null`, `radius: 0`, `followPoint: {x: 0, y: 0}`. -/
def DEFAULT_FOLLOW_OPTIONS : FollowResolvedOptions :=
  { speed := 0
    acceleration := none
    radius := some 0
    followPoint := some { x := 0, y := 0 } }

/-- The user-supplied `IFollowOptions` object: each field may be absent.
(`followPoint?: PointData` cannot be `null` at construction, only absent.) -/
structure FollowInit where
  speed : Option ℝ := none
  acceleration : Option (Option ℝ) := none
  radius : Option (Option ℝ) := none
  followPoint : Option Point := none

/-- `Object.assign({}, DEFAULT_FOLLOW_OPTIONS, options)`: a field present in
`options` overrides the default. -/
def assignOptions (options : FollowInit) : FollowResolvedOptions :=
  { speed := options.speed.getD DEFAULT_FOLLOW_OPTIONS.speed
    acceleration := options.acceleration.getD DEFAULT_FOLLOW_OPTIONS.acceleration
    radius := options.radius.getD DEFAULT_FOLLOW_OPTIONS.radius
    followPoint := (options.followPoint.map some).getD DEFAULT_FOLLOW_OPTIONS.followPoint }

/-- The state an `update` call reads: the plugin's own fields (`options`,
`velocity`) plus the collaborators it consults — the pause flag from the
plugin base class, the target's position, and the parent viewport's center
and canvas-to-world conversion. -/
structure Follow where
  options : FollowResolvedOptions
  velocity : Point
  paused : Bool
  targetX : ℝ
  targetY : ℝ
  center : Point
  toWorld : Point → Point

/-- The `Follow` constructor (lines 71-78): merge the options over the
defaults and set `velocity = {x: 0, y: 0}`. -/
def mkFollow (options : FollowInit) (target : Point) (center : Point)
    (toWorld : Point → Point) (paused : Bool) : Follow :=
  { options := assignOptions options
    velocity := { x := 0, y := 0 }
    paused := paused
    targetX := target.x
    targetY := target.y
    center := center
    toWorld := toWorld }

/-- The observable outcome of one `update` call: the viewport center and the
velocity state after the call, and whether `moveCenter` was called (every
`moveCenter` call in the source is immediately followed by emitting a
`moved` event with `type: follow`, so one flag models both). -/
structure UpdateResult where
  center : Point
  velocity : Point
  moved : Bool

/-- The result of an `update` call that neither moves the center nor touches
the velocity nor emits an event. -/
def Follow.noUpdate (f : Follow) : UpdateResult :=
  { center := f.center, velocity := f.velocity, moved := false }

/-- Lines 88-89: `this.parent.toWorld(this.options.followPoint ?? {x:
this.parent.center.x, y: this.parent.center.y})`. -/
def Follow.followPointWorld (f : Follow) : Point :=
  f.toWorld (f.options.followPoint.getD { x := f.center.x, y := f.center.y })

/-- Lines 96-98: the distance from the world-space follow point to the
target. -/
noncomputable def Follow.deadZoneDistance (f : Follow) : ℝ :=
  Real.sqrt ((f.targetY - f.followPointWorld.y) ^ 2 + (f.targetX - f.followPointWorld.x) ^ 2)

/-- Lines 91-111: the effective target `(toX, toY)` after the dead-zone
branch; `none` models the early `return` when `distance ≤ radius`. -/
noncomputable def Follow.effectiveTarget (f : Follow) : Option Point :=
  if Truthy f.options.radius then
    if f.deadZoneDistance > f.options.radius.getD 0 then
      let angle := atan2 (f.targetY - f.followPointWorld.y) (f.targetX - f.followPointWorld.x)
      some { x := f.targetX - Real.cos angle * f.options.radius.getD 0
             y := f.targetY - Real.sin angle * f.options.radius.getD 0 }
    else
      none
  else
    some { x := f.targetX, y := f.targetY }

/-- Lines 114-115: `offsetX = followPointWorld.x - this.parent.center.x`. -/
def Follow.offsetX (f : Follow) : ℝ := f.followPointWorld.x - f.center.x

/-- Lines 114-115, `y` component. -/
def Follow.offsetY (f : Follow) : ℝ := f.followPointWorld.y - f.center.y

/-- Lines 118-119: `targetCenterX = toX - offsetX`. -/
def Follow.targetCenterX (f : Follow) (toX : ℝ) : ℝ := toX - f.offsetX

/-- Lines 118-119, `y` component. -/
def Follow.targetCenterY (f : Follow) (toY : ℝ) : ℝ := toY - f.offsetY

/-- Lines 121-122: `deltaX = targetCenterX - this.parent.center.x`. -/
def Follow.deltaX (f : Follow) (toX : ℝ) : ℝ := f.targetCenterX toX - f.center.x

/-- Lines 121-122, `y` component. -/
def Follow.deltaY (f : Follow) (toY : ℝ) : ℝ := f.targetCenterY toY - f.center.y

/-- Lines 128-160: the accelerated-motion branch (`speed` and `acceleration`
both truthy, `deltaX || deltaY` already established). -/
noncomputable def Follow.accelStep (f : Follow) (elapsed toX toY : ℝ) : UpdateResult :=
  let a := f.options.acceleration.getD 0
  let angle := atan2 (f.deltaY toY) (f.deltaX toX)
  let distance := Real.sqrt ((f.deltaX toX) ^ 2 + (f.deltaY toY) ^ 2)
  if distance ≠ 0 then
    let decelerationDistance := (f.velocity.x ^ 2 + f.velocity.y ^ 2) / (2 * a)
    let v : Point :=
      if distance > decelerationDistance then
        { x := min (f.velocity.x + a * elapsed) f.options.speed
          y := min (f.velocity.y + a * elapsed) f.options.speed }
      else
        { x := max (f.velocity.x - a * elapsed) 0
          y := max (f.velocity.y - a * elapsed) 0 }
    let changeX := Real.cos angle * v.x
    let changeY := Real.sin angle * v.y
    { center := { x := if |changeX| > |f.deltaX toX| then f.targetCenterX toX
                       else f.center.x + changeX
                  y := if |changeY| > |f.deltaY toY| then f.targetCenterY toY
                       else f.center.y + changeY }
      velocity := v
      moved := true }
  else
    f.noUpdate

/-- Lines 161-171: the constant-speed branch (`speed` truthy, `acceleration`
falsy). -/
noncomputable def Follow.constStep (f : Follow) (toX toY : ℝ) : UpdateResult :=
  let angle := atan2 (f.deltaY toY) (f.deltaX toX)
  let changeX := Real.cos angle * f.options.speed
  let changeY := Real.sin angle * f.options.speed
  { center := { x := if |changeX| > |f.deltaX toX| then f.targetCenterX toX
                     else f.center.x + changeX
                y := if |changeY| > |f.deltaY toY| then f.targetCenterY toY
                     else f.center.y + changeY }
    velocity := f.velocity
    moved := true }

/-- Lines 113-178: steps 3-5 of the update, given the effective target
`(toX, toY)` that survived the dead-zone branch. -/
noncomputable def Follow.moveStep (f : Follow) (elapsed toX toY : ℝ) : UpdateResult :=
  if f.deltaX toX ≠ 0 ∨ f.deltaY toY ≠ 0 then
    if f.options.speed ≠ 0 then
      if Truthy f.options.acceleration then
        f.accelStep elapsed toX toY
      else
        f.constStep toX toY
    else
      { center := { x := f.targetCenterX toX, y := f.targetCenterY toY }
        velocity := f.velocity
        moved := true }
  else
    f.noUpdate

/-- Lines 80-179: `Follow.update(elapsed)`. -/
noncomputable def Follow.update (f : Follow) (elapsed : ℝ) : UpdateResult :=
  if f.paused then
    f.noUpdate
  else
    match f.effectiveTarget with
    | none => f.noUpdate
    | some t => f.moveStep elapsed t.x t.y

/-- Lines 185-188: `setFollowPoint(point)` writes `this.options.followPoint`. -/
def Follow.setFollowPoint (f : Follow) (point : Option Point) : Follow :=
  { f with options := { f.options with followPoint := point } }

/-- Lines 194-197: `getFollowPoint()` reads `this.options.followPoint`. -/
def Follow.getFollowPoint (f : Follow) : Option Point :=
  f.options.followPoint

/-- The common tail of the two moving branches (lines 152-158 and 164-170):
apply the velocity vector `v` along the bearing angle, snapping an axis to
the target center when the change on that axis would overshoot the
remaining delta, then call `moveCenter` and emit `moved`/`follow`.  The
`velocity` field of the result is `v`; the constant-speed branch instantiates
`v` with `(speed, speed)` but keeps the stored velocity state instead. -/
noncomputable def Follow.applyVelocity (f : Follow) (toX toY : ℝ) (v : Point) : UpdateResult :=
  let angle := atan2 (f.deltaY toY) (f.deltaX toX)
  let changeX := Real.cos angle * v.x
  let changeY := Real.sin angle * v.y
  { center := { x := if |changeX| > |f.deltaX toX| then f.targetCenterX toX
                     else f.center.x + changeX
                y := if |changeY| > |f.deltaY toY| then f.targetCenterY toY
                     else f.center.y + changeY }
    velocity := v
    moved := true }

/-- One frame of the host loop: before `update` runs, external logic may move
the target and toggle the pause flag; `elapsed` is the frame's elapsed time. -/
structure Frame where
  elapsed : ℝ
  targetX : ℝ
  targetY : ℝ
  paused : Bool

/-- Run one frame: install the frame's external state, call `update`, and
write the resulting center and velocity back into the state. -/
noncomputable def Follow.stepFrame (f : Follow) (fr : Frame) : Follow :=
  let g := { f with targetX := fr.targetX, targetY := fr.targetY, paused := fr.paused }
  let r := g.update fr.elapsed
  { g with center := r.center, velocity := r.velocity }

/-- Run a whole sequence of frames. -/
noncomputable def Follow.run (f : Follow) (frames : List Frame) : Follow :=
  frames.foldl Follow.stepFrame f

/-- Both velocity components lie in the closed interval `[0, speed]`. -/
def VelocityInv (f : Follow) : Prop :=
  0 ≤ f.velocity.x ∧ f.velocity.x ≤ f.options.speed ∧
  0 ≤ f.velocity.y ∧ f.velocity.y ≤ f.options.speed

/-! ### Concrete states used to instantiate the theorems -/

/-- Dead-zone radius 5, target exactly on the follow point `(3, 4)`. -/
def fDeadZone : Follow :=
  { options := { speed := 9, acceleration := none, radius := some 5, followPoint := some { x := 3, y := 4 } }
    velocity := { x := 0, y := 0 }
    paused := false
    targetX := 3
    targetY := 4
    center := { x := 0, y := 0 }
    toWorld := id }

/-- Teleport configuration (`speed = 0`), target at `(100, 0)`, center at the
origin, follow point unset, dead zone disabled (`radius: 0`). -/
def fTeleport : Follow :=
  { options := { speed := 0, acceleration := none, radius := some 0, followPoint := none }
    velocity := { x := 0, y := 0 }
    paused := false
    targetX := 100
    targetY := 0
    center := { x := 0, y := 0 }
    toWorld := id }

/-- Dead-zone radius 10 with the target 100 world units to the right of the
follow point `(0, 0)`. -/
def fClamp : Follow :=
  { options := { speed := 0, acceleration := none, radius := some 10, followPoint := some { x := 0, y := 0 } }
    velocity := { x := 0, y := 0 }
    paused := false
    targetX := 100
    targetY := 0
    center := { x := 0, y := 0 }
    toWorld := id }

/-- Accelerated configuration: `speed = 5`, `acceleration = 5`, target far
away diagonally at `(1000, 1000)`, velocity state at rest. -/
def fAccel : Follow :=
  { options := { speed := 5, acceleration := some 5, radius := some 0, followPoint := some { x := 0, y := 0 } }
    velocity := { x := 0, y := 0 }
    paused := false
    targetX := 1000
    targetY := 1000
    center := { x := 0, y := 0 }
    toWorld := id }

/-- Constant-speed configuration: `speed = 5`, no acceleration, target at
`(100, 0)`. -/
def fConst : Follow :=
  { options := { speed := 5, acceleration := none, radius := some 0, followPoint := some { x := 0, y := 0 } }
    velocity := { x := 0, y := 0 }
    paused := false
    targetX := 100
    targetY := 0
    center := { x := 0, y := 0 }
    toWorld := id }

/-- A paused controller with nonzero velocity state. -/
def fPausedState : Follow :=
  { options := { speed := 9, acceleration := some 1, radius := none, followPoint := none }
    velocity := { x := 2, y := 3 }
    paused := true
    targetX := 0
    targetY := 0
    center := { x := 0, y := 0 }
    toWorld := id }

/-- A controller constructed with an empty options object, viewport center at
`(50, 60)`. -/
def fDefault : Follow :=
  mkFollow {} { x := 42, y := 7 } { x := 50, y := 60 } id false

/-- The user-supplied options for the accelerated run used in witnesses. -/
def initAccel : FollowInit :=
  { speed := some 5, acceleration := some (some 5) }

/-- Two concrete frames with nonnegative elapsed times. -/
def framesW : List Frame :=
  [{ elapsed := 1, targetX := 50, targetY := 0, paused := false },
   { elapsed := 2, targetX := 80, targetY := 10, paused := true }]

/-! ### Basic facts about `atan2` -/

theorem abs_mk_eq_sqrt (x y : ℝ) : Complex.abs ⟨x, y⟩ = Real.sqrt (x ^ 2 + y ^ 2) := by
  rw [Complex.abs_apply, Complex.normSq_mk]
  ring_nf

theorem cos_atan2 (y x : ℝ) (h : x ≠ 0 ∨ y ≠ 0) :
    Real.cos (atan2 y x) = x / Real.sqrt (x ^ 2 + y ^ 2) := by
  have hz : (⟨x, y⟩ : ℂ) ≠ 0 := by
    intro hc
    have hre : x = 0 := congrArg Complex.re hc
    have him : y = 0 := congrArg Complex.im hc
    rcases h with h | h
    · exact h hre
    · exact h him
  rw [atan2, Complex.cos_arg hz, abs_mk_eq_sqrt]

theorem sin_atan2 (y x : ℝ) :
    Real.sin (atan2 y x) = y / Real.sqrt (x ^ 2 + y ^ 2) := by
  rw [atan2, Complex.sin_arg, abs_mk_eq_sqrt]

theorem sqrt_delta_pos {dx dy : ℝ} (h : dx ≠ 0 ∨ dy ≠ 0) :
    0 < Real.sqrt (dx ^ 2 + dy ^ 2) := by
  apply Real.sqrt_pos.mpr
  rcases h with h | h
  · have hx : 0 < dx ^ 2 := lt_of_le_of_ne (sq_nonneg dx) (Ne.symm (pow_ne_zero 2 h))
    exact add_pos_of_pos_of_nonneg hx (sq_nonneg dy)
  · have hy : 0 < dy ^ 2 := lt_of_le_of_ne (sq_nonneg dy) (Ne.symm (pow_ne_zero 2 h))
    exact add_pos_of_nonneg_of_pos (sq_nonneg dx) hy

/-! ### Branch-selection lemmas for `update` -/

theorem update_of_paused (f : Follow) (elapsed : ℝ) (hp : f.paused = true) :
    f.update elapsed = f.noUpdate := by
  unfold Follow.update
  rw [if_pos hp]

theorem update_of_dead_zone (f : Follow) (elapsed : ℝ)
    (ht : f.effectiveTarget = none) :
    f.update elapsed = f.noUpdate := by
  unfold Follow.update
  by_cases hp : f.paused = true
  · rw [if_pos hp]
  · rw [if_neg hp, ht]

theorem update_eq_moveStep (f : Follow) (elapsed : ℝ) (t : Point)
    (hp : f.paused = false) (ht : f.effectiveTarget = some t) :
    f.update elapsed = f.moveStep elapsed t.x t.y := by
  unfold Follow.update
  rw [hp, ht]
  rfl

theorem moveStep_of_zero_delta (f : Follow) (elapsed toX toY : ℝ)
    (hdz : ¬(f.deltaX toX ≠ 0 ∨ f.deltaY toY ≠ 0)) :
    f.moveStep elapsed toX toY = f.noUpdate := by
  unfold Follow.moveStep
  rw [if_neg hdz]

theorem moveStep_teleport (f : Follow) (elapsed toX toY : ℝ)
    (hdz : f.deltaX toX ≠ 0 ∨ f.deltaY toY ≠ 0)
    (hs : f.options.speed = 0) :
    f.moveStep elapsed toX toY =
      { center := { x := f.targetCenterX toX, y := f.targetCenterY toY }
        velocity := f.velocity
        moved := true } := by
  unfold Follow.moveStep
  rw [if_pos hdz, if_neg (by rw [hs]; exact fun hc => hc rfl)]

theorem moveStep_eq_accelStep (f : Follow) (elapsed toX toY : ℝ)
    (hdz : f.deltaX toX ≠ 0 ∨ f.deltaY toY ≠ 0)
    (hs : f.options.speed ≠ 0)
    (hacc : Truthy f.options.acceleration) :
    f.moveStep elapsed toX toY = f.accelStep elapsed toX toY := by
  unfold Follow.moveStep
  rw [if_pos hdz, if_pos hs, if_pos hacc]

theorem moveStep_eq_constStep (f : Follow) (elapsed toX toY : ℝ)
    (hdz : f.deltaX toX ≠ 0 ∨ f.deltaY toY ≠ 0)
    (hs : f.options.speed ≠ 0)
    (hacc : ¬ Truthy f.options.acceleration) :
    f.moveStep elapsed toX toY = f.constStep toX toY := by
  unfold Follow.moveStep
  rw [if_pos hdz, if_pos hs, if_neg hacc]

theorem effectiveTarget_no_radius (f : Follow) (h : ¬ Truthy f.options.radius) :
    f.effectiveTarget = some { x := f.targetX, y := f.targetY } := by
  unfold Follow.effectiveTarget
  rw [if_neg h]

theorem effectiveTarget_inside (f : Follow) (r : ℝ)
    (hr : f.options.radius = some r) (hr0 : r ≠ 0)
    (hin : f.deadZoneDistance ≤ r) :
    f.effectiveTarget = none := by
  unfold Follow.effectiveTarget
  rw [hr]
  rw [if_pos (show Truthy (some r) from hr0)]
  rw [if_neg (by simpa using not_lt.mpr hin)]

theorem effectiveTarget_outside (f : Follow) (r : ℝ)
    (hr : f.options.radius = some r) (hr0 : r ≠ 0)
    (hout : r < f.deadZoneDistance) :
    f.effectiveTarget =
      some { x := f.targetX - Real.cos (atan2 (f.targetY - f.followPointWorld.y)
                    (f.targetX - f.followPointWorld.x)) * r
             y := f.targetY - Real.sin (atan2 (f.targetY - f.followPointWorld.y)
                    (f.targetX - f.followPointWorld.x)) * r } := by
  unfold Follow.effectiveTarget
  rw [hr]
  rw [if_pos (show Truthy (some r) from hr0)]
  rw [if_pos (by simpa using hout)]
  rfl

theorem accelStep_far (f : Follow) (elapsed toX toY a : ℝ)
    (ha : f.options.acceleration = some a)
    (hdist : Real.sqrt ((f.deltaX toX) ^ 2 + (f.deltaY toY) ^ 2) ≠ 0)
    (hfar : Real.sqrt ((f.deltaX toX) ^ 2 + (f.deltaY toY) ^ 2) >
      (f.velocity.x ^ 2 + f.velocity.y ^ 2) / (2 * a)) :
    f.accelStep elapsed toX toY =
      f.applyVelocity toX toY
        { x := min (f.velocity.x + a * elapsed) f.options.speed
          y := min (f.velocity.y + a * elapsed) f.options.speed } := by
  unfold Follow.accelStep Follow.applyVelocity
  simp only [ha, Option.getD_some]
  rw [if_pos hdist, if_pos hfar]

theorem accelStep_near (f : Follow) (elapsed toX toY a : ℝ)
    (ha : f.options.acceleration = some a)
    (hdist : Real.sqrt ((f.deltaX toX) ^ 2 + (f.deltaY toY) ^ 2) ≠ 0)
    (hnear : ¬(Real.sqrt ((f.deltaX toX) ^ 2 + (f.deltaY toY) ^ 2) >
      (f.velocity.x ^ 2 + f.velocity.y ^ 2) / (2 * a))) :
    f.accelStep elapsed toX toY =
      f.applyVelocity toX toY
        { x := max (f.velocity.x - a * elapsed) 0
          y := max (f.velocity.y - a * elapsed) 0 } := by
  unfold Follow.accelStep Follow.applyVelocity
  simp only [ha, Option.getD_some]
  rw [if_pos hdist, if_neg hnear]

theorem accelStep_zero_dist (f : Follow) (elapsed toX toY : ℝ)
    (hdist : ¬(Real.sqrt ((f.deltaX toX) ^ 2 + (f.deltaY toY) ^ 2) ≠ 0)) :
    f.accelStep elapsed toX toY = f.noUpdate := by
  unfold Follow.accelStep
  rw [if_neg hdist]

theorem constStep_eq (f : Follow) (toX toY : ℝ) :
    f.constStep toX toY =
      { f.applyVelocity toX toY { x := f.options.speed, y := f.options.speed } with
        velocity := f.velocity } := by
  unfold Follow.constStep Follow.applyVelocity
  rfl

/-! ### One axis of the overshoot clamp -/

theorem axis_between (c d chg : ℝ) (hsign : 0 ≤ chg * d) :
    min c (c + d) ≤ (if |chg| > |d| then c + d else c + chg) ∧
    (if |chg| > |d| then c + d else c + chg) ≤ max c (c + d) := by
  split
  · exact ⟨min_le_right _ _, le_max_right _ _⟩
  · rename_i h
    push_neg at h
    rcases le_or_lt 0 d with hd | hd
    · have habs : |d| = d := abs_of_nonneg hd
      have hchg_le : chg ≤ d := (le_abs_self chg).trans (habs ▸ h)
      have hchg0 : 0 ≤ chg := by
        by_contra hneg
        push_neg at hneg
        have h1 : chg * d ≤ 0 := by
          have := mul_le_mul_of_nonneg_right hneg.le hd
          simpa using this
        have h2 : chg * d = 0 := le_antisymm h1 hsign
        rcases mul_eq_zero.mp h2 with h3 | h3
        · exact hneg.ne h3
        · rw [h3] at h
          have : chg = 0 := by simpa [abs_nonpos_iff] using h
          exact hneg.ne this
      constructor
      · exact (min_le_left _ _).trans (le_add_of_nonneg_right hchg0)
      · exact (add_le_add_left hchg_le c).trans (le_max_right _ _)
    · have habs : |d| = -d := abs_of_neg hd
      have h1 : -chg ≤ -d := (neg_le_abs chg).trans (habs ▸ h)
      have hchg_ge : d ≤ chg := by linarith
      have hchg0 : chg ≤ 0 := by
        by_contra hpos
        push_neg at hpos
        have : chg * d < 0 := mul_neg_of_pos_of_neg hpos hd
        linarith
      constructor
      · exact (min_le_right _ _).trans (add_le_add_left hchg_ge c)
      · exact (add_le_of_nonpos_right hchg0).trans (le_max_left _ _)

/-! ### The claims -/

/-- C1: with `speed = 0` and a nonzero computed delta, one `update` call puts
the viewport center exactly at the effective target position minus the offset
(world follow point minus pre-call center), leaves the velocity state alone,
and emits a `moved` notification tagged `follow`. -/
theorem teleport_one_frame (f : Follow) (elapsed : ℝ) (t : Point)
    (hp : f.paused = false) (hs : f.options.speed = 0)
    (ht : f.effectiveTarget = some t)
    (hd : f.deltaX t.x ≠ 0 ∨ f.deltaY t.y ≠ 0) :
    f.update elapsed =
      { center := { x := t.x - f.offsetX, y := t.y - f.offsetY }
        velocity := f.velocity
        moved := true } := by
  rw [update_eq_moveStep f elapsed t hp ht, moveStep_teleport f elapsed t.x t.y hd hs]
  rfl

theorem teleport_one_frame_witness :
    fTeleport.paused = false ∧ fTeleport.options.speed = 0 ∧
    fTeleport.effectiveTarget = some { x := 100, y := 0 } ∧
    (fTeleport.deltaX 100 ≠ 0 ∨ fTeleport.deltaY 0 ≠ 0) ∧
    fTeleport.update 3 =
      { center := { x := 100, y := 0 }, velocity := { x := 0, y := 0 }, moved := true } := by
  have hET : fTeleport.effectiveTarget = some { x := 100, y := 0 } :=
    effectiveTarget_no_radius fTeleport (fun hc => hc rfl)
  have hd : fTeleport.deltaX 100 ≠ 0 ∨ fTeleport.deltaY 0 ≠ 0 := by
    left
    norm_num [Follow.deltaX, Follow.targetCenterX, Follow.offsetX, Follow.followPointWorld,
      fTeleport]
  refine ⟨rfl, rfl, hET, hd, ?_⟩
  exact (teleport_one_frame fTeleport 3 { x := 100, y := 0 } rfl rfl hET hd).trans
    (by norm_num [Follow.offsetX, Follow.offsetY, Follow.followPointWorld, fTeleport])

/-- C2: with a configured `radius > 0` and the target within `radius` of the
world follow point, `update` is a complete no-op for any `elapsed`: the
center is not moved, no event is emitted, and the velocity state is
unchanged. -/
theorem dead_zone_update_noop (f : Follow) (elapsed r : ℝ)
    (hr : f.options.radius = some r) (hr0 : 0 < r)
    (hin : f.deadZoneDistance ≤ r) :
    f.update elapsed = f.noUpdate :=
  update_of_dead_zone f elapsed (effectiveTarget_inside f r hr (ne_of_gt hr0) hin)

theorem dead_zone_update_noop_witness :
    fDeadZone.options.radius = some 5 ∧ (0:ℝ) < 5 ∧ fDeadZone.deadZoneDistance ≤ 5 ∧
    fDeadZone.update 7 = fDeadZone.noUpdate := by
  have hdist : fDeadZone.deadZoneDistance ≤ 5 := by
    simp only [Follow.deadZoneDistance, Follow.followPointWorld, fDeadZone,
      Option.getD_some, id_eq]
    norm_num [Real.sqrt_zero]
  exact ⟨rfl, by norm_num, hdist, dead_zone_update_noop fDeadZone 7 5 rfl (by norm_num) hdist⟩

/-- C9: `setFollowPoint p; getFollowPoint()` returns exactly `p` (including
`p = null`), and `setFollowPoint` changes no other state. -/
theorem follow_point_round_trip (f : Follow) (p : Option Point) :
    (f.setFollowPoint p).getFollowPoint = p ∧
    (f.setFollowPoint none).getFollowPoint = none ∧
    (f.setFollowPoint p).options.speed = f.options.speed ∧
    (f.setFollowPoint p).options.acceleration = f.options.acceleration ∧
    (f.setFollowPoint p).options.radius = f.options.radius ∧
    (f.setFollowPoint p).velocity = f.velocity ∧
    (f.setFollowPoint p).paused = f.paused ∧
    (f.setFollowPoint p).targetX = f.targetX ∧
    (f.setFollowPoint p).targetY = f.targetY ∧
    (f.setFollowPoint p).center = f.center ∧
    (f.setFollowPoint p).toWorld = f.toWorld :=
  ⟨rfl, rfl, rfl, rfl, rfl, rfl, rfl, rfl, rfl, rfl, rfl⟩

/-- C10: every `update` call that does not reach the accelerated-motion
positive-distance path — paused, dead-zone early return, both deltas zero,
teleport (`speed = 0`), or `acceleration` null/0 — leaves the velocity state
unchanged. -/
theorem update_keeps_velocity (f : Follow) (elapsed : ℝ)
    (h : f.paused = true ∨ f.effectiveTarget = none ∨
      (∀ t : Point, f.effectiveTarget = some t → f.deltaX t.x = 0 ∧ f.deltaY t.y = 0) ∨
      f.options.speed = 0 ∨ ¬ Truthy f.options.acceleration) :
    (f.update elapsed).velocity = f.velocity := by
  by_cases hp : f.paused = true
  · rw [update_of_paused f elapsed hp]; rfl
  · cases hET : f.effectiveTarget with
    | none => rw [update_of_dead_zone f elapsed hET]; rfl
    | some t =>
      have hp2 : f.paused = false := by simpa using hp
      rw [update_eq_moveStep f elapsed t hp2 hET]
      rcases h with h | h | h | h | h
      · exact absurd h hp
      · rw [h] at hET; cases hET
      · have hd := h t hET
        rw [moveStep_of_zero_delta f elapsed t.x t.y (by push_neg; exact hd)]; rfl
      · by_cases hdz : f.deltaX t.x ≠ 0 ∨ f.deltaY t.y ≠ 0
        · rw [moveStep_teleport f elapsed t.x t.y hdz h]
        · rw [moveStep_of_zero_delta f elapsed t.x t.y hdz]; rfl
      · by_cases hdz : f.deltaX t.x ≠ 0 ∨ f.deltaY t.y ≠ 0
        · by_cases hsp : f.options.speed ≠ 0
          · rw [moveStep_eq_constStep f elapsed t.x t.y hdz hsp h, constStep_eq]
          · push_neg at hsp
            rw [moveStep_teleport f elapsed t.x t.y hdz hsp]
        · rw [moveStep_of_zero_delta f elapsed t.x t.y hdz]; rfl

/-- C7 (code bug): a controller constructed without a `followPoint` option
stores the fixed canvas point `(0, 0)` — `DEFAULT_FOLLOW_OPTIONS.followPoint`
— so `getFollowPoint()` does not report the unset state (`null`) and `update`
anchors at the fixed canvas point `(0, 0)` instead of the viewport's current
center, contradicting the doc comments at lines 30-36, 183 and 192 of the
source. -/
theorem default_follow_point_is_origin :
    fDefault.getFollowPoint = some { x := 0, y := 0 } ∧
    fDefault.getFollowPoint ≠ none ∧
    fDefault.followPointWorld = { x := 0, y := 0 } ∧
    fDefault.followPointWorld ≠ fDefault.center := by
  refine ⟨rfl, ?_, rfl, ?_⟩
  · intro hc
    exact Option.noConfusion
      ((rfl : fDefault.getFollowPoint = some { x := 0, y := 0 }).symm.trans hc)
  intro hc
  have hx : (0:ℝ) = 50 := congrArg Point.x hc
  norm_num at hx

/-- C8: in the accelerated path the deceleration-distance division is safe —
the branch requires a truthy (hence nonzero) `acceleration`, so the
denominator `2·acceleration` is nonzero — and with a nonzero per-axis delta
the distance `sqrt(deltaX² + deltaY²)` is positive in exact arithmetic, so
the guarded zero-distance no-op branch is unreachable: `accelStep` always
takes the moving branch. -/
theorem accel_branch_safe (f : Follow) (toX toY a : ℝ)
    (ha : f.options.acceleration = some a)
    (hT : Truthy f.options.acceleration)
    (hdz : f.deltaX toX ≠ 0 ∨ f.deltaY toY ≠ 0) :
    2 * a ≠ 0 ∧ 0 < Real.sqrt ((f.deltaX toX) ^ 2 + (f.deltaY toY) ^ 2) ∧
    ∀ elapsed, (f.accelStep elapsed toX toY).moved = true := by
  have ha0 : a ≠ 0 := by rw [ha] at hT; exact hT
  have hdist := sqrt_delta_pos hdz
  refine ⟨mul_ne_zero two_ne_zero ha0, hdist, ?_⟩
  intro elapsed
  simp only [Follow.accelStep]
  rw [if_pos (ne_of_gt hdist)]

theorem accel_branch_safe_witness :
    fAccel.options.acceleration = some 5 ∧ Truthy fAccel.options.acceleration ∧
    (fAccel.deltaX 1000 ≠ 0 ∨ fAccel.deltaY 1000 ≠ 0) ∧
    (2 * (5:ℝ) ≠ 0 ∧ 0 < Real.sqrt ((fAccel.deltaX 1000) ^ 2 + (fAccel.deltaY 1000) ^ 2) ∧
      ∀ elapsed, (fAccel.accelStep elapsed 1000 1000).moved = true) := by
  have hT : Truthy fAccel.options.acceleration := (by norm_num : (5:ℝ) ≠ 0)
  have hdz : fAccel.deltaX 1000 ≠ 0 ∨ fAccel.deltaY 1000 ≠ 0 := by
    left
    norm_num [Follow.deltaX, Follow.targetCenterX, Follow.offsetX, Follow.followPointWorld,
      fAccel]
  exact ⟨rfl, hT, hdz, accel_branch_safe fAccel 1000 1000 5 rfl hT hdz⟩

/-! ### Velocity-state machinery for the invariant claims -/

theorem stepFrame_options (f : Follow) (fr : Frame) :
    (f.stepFrame fr).options = f.options := rfl

theorem run_options (frames : List Frame) :
    ∀ f : Follow, (f.run frames).options = f.options := by
  induction frames with
  | nil => intro f; rfl
  | cons fr rest ih => intro f; exact (ih (f.stepFrame fr)).trans (stepFrame_options f fr)

theorem update_velocity_cases (f : Follow) (elapsed : ℝ) :
    (f.update elapsed).velocity = f.velocity ∨
    ∃ a, f.options.acceleration = some a ∧
      ((f.update elapsed).velocity =
        { x := min (f.velocity.x + a * elapsed) f.options.speed
          y := min (f.velocity.y + a * elapsed) f.options.speed } ∨
       (f.update elapsed).velocity =
        { x := max (f.velocity.x - a * elapsed) 0
          y := max (f.velocity.y - a * elapsed) 0 }) := by
  by_cases hp : f.paused = true
  · left; rw [update_of_paused f elapsed hp]; rfl
  · cases hET : f.effectiveTarget with
    | none => left; rw [update_of_dead_zone f elapsed hET]; rfl
    | some t =>
      have hp2 : f.paused = false := by simpa using hp
      rw [update_eq_moveStep f elapsed t hp2 hET]
      by_cases hdz : f.deltaX t.x ≠ 0 ∨ f.deltaY t.y ≠ 0
      · by_cases hsp : f.options.speed ≠ 0
        · by_cases hacc : Truthy f.options.acceleration
          · cases hA : f.options.acceleration with
            | none => rw [hA] at hacc; exact False.elim hacc
            | some a =>
              rw [moveStep_eq_accelStep f elapsed t.x t.y hdz hsp hacc]
              by_cases hdist : Real.sqrt ((f.deltaX t.x) ^ 2 + (f.deltaY t.y) ^ 2) ≠ 0
              · by_cases hfar : Real.sqrt ((f.deltaX t.x) ^ 2 + (f.deltaY t.y) ^ 2) >
                    (f.velocity.x ^ 2 + f.velocity.y ^ 2) / (2 * a)
                · right
                  refine ⟨a, rfl, Or.inl ?_⟩
                  rw [accelStep_far f elapsed t.x t.y a hA hdist hfar]
                  rfl
                · right
                  refine ⟨a, rfl, Or.inr ?_⟩
                  rw [accelStep_near f elapsed t.x t.y a hA hdist hfar]
                  rfl
              · left; rw [accelStep_zero_dist f elapsed t.x t.y hdist]; rfl
          · left; rw [moveStep_eq_constStep f elapsed t.x t.y hdz hsp hacc, constStep_eq]
        · push_neg at hsp
          left; rw [moveStep_teleport f elapsed t.x t.y hdz hsp]
      · left; rw [moveStep_of_zero_delta f elapsed t.x t.y hdz]; rfl

theorem stepFrame_velocity_inv (f : Follow) (fr : Frame)
    (hs : 0 ≤ f.options.speed)
    (ha : ∀ a, f.options.acceleration = some a → 0 < a)
    (he : 0 ≤ fr.elapsed)
    (hinv : VelocityInv f) : VelocityInv (f.stepFrame fr) := by
  obtain ⟨h1, h2, h3, h4⟩ := hinv
  rcases update_velocity_cases
      { f with targetX := fr.targetX, targetY := fr.targetY, paused := fr.paused }
      fr.elapsed with hc | ⟨a, hA, hc | hc⟩
  · have hv : (f.stepFrame fr).velocity = f.velocity := hc
    exact ⟨by rw [hv]; exact h1, by rw [hv, stepFrame_options]; exact h2,
      by rw [hv]; exact h3, by rw [hv, stepFrame_options]; exact h4⟩
  · have ha0 : 0 < a := ha a hA
    have hv : (f.stepFrame fr).velocity =
        { x := min (f.velocity.x + a * fr.elapsed) f.options.speed
          y := min (f.velocity.y + a * fr.elapsed) f.options.speed } := hc
    refine ⟨?_, ?_, ?_, ?_⟩
    · rw [hv]; exact le_min (add_nonneg h1 (mul_nonneg ha0.le he)) hs
    · rw [hv, stepFrame_options]; exact min_le_right _ _
    · rw [hv]; exact le_min (add_nonneg h3 (mul_nonneg ha0.le he)) hs
    · rw [hv, stepFrame_options]; exact min_le_right _ _
  · have ha0 : 0 < a := ha a hA
    have hv : (f.stepFrame fr).velocity =
        { x := max (f.velocity.x - a * fr.elapsed) 0
          y := max (f.velocity.y - a * fr.elapsed) 0 } := hc
    have hae : 0 ≤ a * fr.elapsed := mul_nonneg ha0.le he
    refine ⟨?_, ?_, ?_, ?_⟩
    · rw [hv]; exact le_max_right _ _
    · rw [hv, stepFrame_options]; exact max_le (by linarith) hs
    · rw [hv]; exact le_max_right _ _
    · rw [hv, stepFrame_options]; exact max_le (by linarith) hs

theorem run_velocity_inv (frames : List Frame) :
    ∀ f : Follow, 0 ≤ f.options.speed →
      (∀ a, f.options.acceleration = some a → 0 < a) →
      (∀ fr ∈ frames, 0 ≤ fr.elapsed) →
      VelocityInv f → VelocityInv (f.run frames) := by
  induction frames with
  | nil => intro f _ _ _ hinv; exact hinv
  | cons fr rest ih =>
    intro f hs ha he hinv
    have hstep := stepFrame_velocity_inv f fr hs ha (he fr (List.mem_cons_self fr rest)) hinv
    exact ih (f.stepFrame fr)
      (by rw [stepFrame_options]; exact hs)
      (fun a h => ha a (by rw [stepFrame_options] at h; exact h))
      (fun g hg => he g (List.mem_cons_of_mem fr hg))
      hstep

/-- C4: with `speed ≥ 0`, a positive `acceleration` whenever it is
configured, and `elapsed ≥ 0` on every frame, both velocity components start
at `{0, 0}` at construction and remain in the closed interval `[0, speed]`
after any sequence of frames. -/
theorem velocity_always_in_range (options : FollowInit) (target center : Point)
    (toWorld : Point → Point) (paused : Bool) (frames : List Frame)
    (hs : 0 ≤ (mkFollow options target center toWorld paused).options.speed)
    (ha : ∀ a, (mkFollow options target center toWorld paused).options.acceleration = some a →
      0 < a)
    (he : ∀ fr ∈ frames, 0 ≤ fr.elapsed) :
    0 ≤ ((mkFollow options target center toWorld paused).run frames).velocity.x ∧
    ((mkFollow options target center toWorld paused).run frames).velocity.x ≤
      (mkFollow options target center toWorld paused).options.speed ∧
    0 ≤ ((mkFollow options target center toWorld paused).run frames).velocity.y ∧
    ((mkFollow options target center toWorld paused).run frames).velocity.y ≤
      (mkFollow options target center toWorld paused).options.speed := by
  have h0 : VelocityInv (mkFollow options target center toWorld paused) :=
    ⟨le_refl 0, hs, le_refl 0, hs⟩
  obtain ⟨a1, a2, a3, a4⟩ := run_velocity_inv frames _ hs ha he h0
  rw [run_options frames] at a2 a4
  exact ⟨a1, a2, a3, a4⟩

theorem velocity_always_in_range_witness :
    (0 ≤ (mkFollow initAccel { x := 1000, y := 1000 } { x := 0, y := 0 } id
      false).options.speed) ∧
    (∀ a, (mkFollow initAccel { x := 1000, y := 1000 } { x := 0, y := 0 } id
      false).options.acceleration = some a → 0 < a) ∧
    (∀ fr ∈ framesW, 0 ≤ fr.elapsed) ∧
    (0 ≤ ((mkFollow initAccel { x := 1000, y := 1000 } { x := 0, y := 0 } id
        false).run framesW).velocity.x ∧
      ((mkFollow initAccel { x := 1000, y := 1000 } { x := 0, y := 0 } id
        false).run framesW).velocity.x ≤
        (mkFollow initAccel { x := 1000, y := 1000 } { x := 0, y := 0 } id
          false).options.speed ∧
      0 ≤ ((mkFollow initAccel { x := 1000, y := 1000 } { x := 0, y := 0 } id
        false).run framesW).velocity.y ∧
      ((mkFollow initAccel { x := 1000, y := 1000 } { x := 0, y := 0 } id
        false).run framesW).velocity.y ≤
        (mkFollow initAccel { x := 1000, y := 1000 } { x := 0, y := 0 } id
          false).options.speed) := by
  have hs : (0:ℝ) ≤ (mkFollow initAccel { x := 1000, y := 1000 } { x := 0, y := 0 } id
      false).options.speed := (by norm_num : (0:ℝ) ≤ 5)
  have ha : ∀ a, (mkFollow initAccel { x := 1000, y := 1000 } { x := 0, y := 0 } id
      false).options.acceleration = some a → 0 < a := by
    intro a h
    have h5 : (5:ℝ) = a := Option.some.inj h
    exact h5 ▸ (by norm_num : (0:ℝ) < 5)
  have he : ∀ fr ∈ framesW, 0 ≤ fr.elapsed := by
    intro fr hfr
    simp only [framesW, List.mem_cons, List.not_mem_nil, or_false] at hfr
    rcases hfr with rfl | rfl <;> norm_num
  exact ⟨hs, ha, he,
    velocity_always_in_range initAccel { x := 1000, y := 1000 } { x := 0, y := 0 } id
      false framesW hs ha he⟩

/-- C5 (amended): under `speed > 0`, a positive `acceleration` whenever it is
configured, and `elapsed ≥ 0` on every frame, the velocity magnitude
`sqrt(vx² + vy²)` is bounded by `√2·speed` on every frame — each component
separately never exceeds `speed` — but it is not bounded by `speed` itself
(see the counterexample, where it reaches `speed·√2`). -/
theorem velocity_magnitude_bound (options : FollowInit) (target center : Point)
    (toWorld : Point → Point) (paused : Bool) (frames : List Frame)
    (hs : 0 < (mkFollow options target center toWorld paused).options.speed)
    (ha : ∀ a, (mkFollow options target center toWorld paused).options.acceleration = some a →
      0 < a)
    (he : ∀ fr ∈ frames, 0 ≤ fr.elapsed) :
    Real.sqrt (((mkFollow options target center toWorld paused).run frames).velocity.x ^ 2 +
        ((mkFollow options target center toWorld paused).run frames).velocity.y ^ 2) ≤
      Real.sqrt 2 * (mkFollow options target center toWorld paused).options.speed := by
  have h0 : VelocityInv (mkFollow options target center toWorld paused) :=
    ⟨le_refl 0, hs.le, le_refl 0, hs.le⟩
  obtain ⟨a1, a2, a3, a4⟩ := run_velocity_inv frames _ hs.le ha he h0
  rw [run_options frames] at a2 a4
  have hx2 : ((mkFollow options target center toWorld paused).run frames).velocity.x ^ 2 ≤
      (mkFollow options target center toWorld paused).options.speed ^ 2 :=
    pow_le_pow_left₀ a1 a2 2
  have hy2 : ((mkFollow options target center toWorld paused).run frames).velocity.y ^ 2 ≤
      (mkFollow options target center toWorld paused).options.speed ^ 2 :=
    pow_le_pow_left₀ a3 a4 2
  calc Real.sqrt (((mkFollow options target center toWorld paused).run frames).velocity.x ^ 2 +
        ((mkFollow options target center toWorld paused).run frames).velocity.y ^ 2) ≤
      Real.sqrt (2 * (mkFollow options target center toWorld paused).options.speed ^ 2) :=
        Real.sqrt_le_sqrt (by linarith)
    _ = Real.sqrt 2 * Real.sqrt ((mkFollow options target center toWorld paused).options.speed ^ 2) :=
        Real.sqrt_mul (by norm_num) _
    _ = Real.sqrt 2 * (mkFollow options target center toWorld paused).options.speed := by
        rw [Real.sqrt_sq hs.le]

theorem velocity_magnitude_bound_witness :
    (0 < (mkFollow initAccel { x := 1000, y := 1000 } { x := 0, y := 0 } id
      false).options.speed) ∧
    (∀ a, (mkFollow initAccel { x := 1000, y := 1000 } { x := 0, y := 0 } id
      false).options.acceleration = some a → 0 < a) ∧
    (∀ fr ∈ framesW, 0 ≤ fr.elapsed) ∧
    Real.sqrt (((mkFollow initAccel { x := 1000, y := 1000 } { x := 0, y := 0 } id
        false).run framesW).velocity.x ^ 2 +
      ((mkFollow initAccel { x := 1000, y := 1000 } { x := 0, y := 0 } id
        false).run framesW).velocity.y ^ 2) ≤
      Real.sqrt 2 * (mkFollow initAccel { x := 1000, y := 1000 } { x := 0, y := 0 } id
        false).options.speed := by
  have hs : (0:ℝ) < (mkFollow initAccel { x := 1000, y := 1000 } { x := 0, y := 0 } id
      false).options.speed := (by norm_num : (0:ℝ) < 5)
  have ha : ∀ a, (mkFollow initAccel { x := 1000, y := 1000 } { x := 0, y := 0 } id
      false).options.acceleration = some a → 0 < a := by
    intro a h
    have h5 : (5:ℝ) = a := Option.some.inj h
    exact h5 ▸ (by norm_num : (0:ℝ) < 5)
  have he : ∀ fr ∈ framesW, 0 ≤ fr.elapsed := by
    intro fr hfr
    simp only [framesW, List.mem_cons, List.not_mem_nil, or_false] at hfr
    rcases hfr with rfl | rfl <;> norm_num
  exact ⟨hs, ha, he,
    velocity_magnitude_bound initAccel { x := 1000, y := 1000 } { x := 0, y := 0 } id
      false framesW hs ha he⟩

/-- C5 (counterexample): starting at rest with `speed = 5`, `acceleration =
5`, target far away diagonally, the very first frame takes the acceleration
branch and sets the velocity to `(5, 5)`, whose magnitude `√50` strictly
exceeds `speed = 5`. -/
theorem velocity_magnitude_counterexample :
    (fAccel.update 1).velocity = { x := 5, y := 5 } ∧
    fAccel.options.speed <
      Real.sqrt ((fAccel.update 1).velocity.x ^ 2 + (fAccel.update 1).velocity.y ^ 2) := by
  have hET : fAccel.effectiveTarget = some { x := 1000, y := 1000 } :=
    effectiveTarget_no_radius fAccel (fun hc => hc rfl)
  have hdx : fAccel.deltaX (1000:ℝ) = 1000 := by
    norm_num [Follow.deltaX, Follow.targetCenterX, Follow.offsetX, Follow.followPointWorld,
      fAccel]
  have hdz : fAccel.deltaX (1000:ℝ) ≠ 0 ∨ fAccel.deltaY (1000:ℝ) ≠ 0 := by
    left; rw [hdx]; norm_num
  have hdistpos : 0 < Real.sqrt ((fAccel.deltaX 1000) ^ 2 + (fAccel.deltaY 1000) ^ 2) :=
    sqrt_delta_pos hdz
  have hfar : Real.sqrt ((fAccel.deltaX 1000) ^ 2 + (fAccel.deltaY 1000) ^ 2) >
      (fAccel.velocity.x ^ 2 + fAccel.velocity.y ^ 2) / (2 * 5) := by
    have h0 : (fAccel.velocity.x ^ 2 + fAccel.velocity.y ^ 2) / (2 * 5) = 0 := by
      norm_num [fAccel]
    rw [h0]; exact hdistpos
  have h1 : fAccel.update 1 = fAccel.moveStep 1 1000 1000 :=
    update_eq_moveStep fAccel 1 { x := 1000, y := 1000 } rfl hET
  have h2 : fAccel.moveStep 1 1000 1000 = fAccel.accelStep 1 1000 1000 :=
    moveStep_eq_accelStep fAccel 1 1000 1000 hdz
      (by norm_num : (5:ℝ) ≠ 0) (by norm_num : (5:ℝ) ≠ 0)
  have h3 : fAccel.accelStep 1 1000 1000 =
      fAccel.applyVelocity 1000 1000
        { x := min (fAccel.velocity.x + 5 * 1) fAccel.options.speed
          y := min (fAccel.velocity.y + 5 * 1) fAccel.options.speed } :=
    accelStep_far fAccel 1 1000 1000 5 rfl (ne_of_gt hdistpos) hfar
  have hv : (fAccel.update 1).velocity = { x := 5, y := 5 } := by
    rw [h1, h2, h3]
    show (⟨min ((0:ℝ) + 5 * 1) 5, min ((0:ℝ) + 5 * 1) 5⟩ : Point) = ⟨5, 5⟩
    norm_num
  refine ⟨hv, ?_⟩
  rw [hv]
  show (5:ℝ) < Real.sqrt ((5:ℝ) ^ 2 + (5:ℝ) ^ 2)
  rw [Real.lt_sqrt (by norm_num : (0:ℝ) ≤ 5)]
  norm_num

theorem update_keeps_velocity_witness :
    (fPausedState.paused = true ∨ fPausedState.effectiveTarget = none ∨
      (∀ t : Point, fPausedState.effectiveTarget = some t →
        fPausedState.deltaX t.x = 0 ∧ fPausedState.deltaY t.y = 0) ∨
      fPausedState.options.speed = 0 ∨ ¬ Truthy fPausedState.options.acceleration) ∧
    (fPausedState.update 4).velocity = fPausedState.velocity :=
  ⟨Or.inl rfl, update_keeps_velocity fPausedState 4 (Or.inl rfl)⟩

theorem applyVelocity_between (f : Follow) (toX toY : ℝ) (v : Point)
    (hdz : f.deltaX toX ≠ 0 ∨ f.deltaY toY ≠ 0)
    (hvx : 0 ≤ v.x) (hvy : 0 ≤ v.y) :
    (min f.center.x (f.targetCenterX toX) ≤ (f.applyVelocity toX toY v).center.x ∧
      (f.applyVelocity toX toY v).center.x ≤ max f.center.x (f.targetCenterX toX)) ∧
    (min f.center.y (f.targetCenterY toY) ≤ (f.applyVelocity toX toY v).center.y ∧
      (f.applyVelocity toX toY v).center.y ≤ max f.center.y (f.targetCenterY toY)) := by
  have hcx : f.center.x + f.deltaX toX = f.targetCenterX toX := by
    unfold Follow.deltaX; ring
  have hcy : f.center.y + f.deltaY toY = f.targetCenterY toY := by
    unfold Follow.deltaY; ring
  have hcos : Real.cos (atan2 (f.deltaY toY) (f.deltaX toX)) =
      f.deltaX toX / Real.sqrt ((f.deltaX toX) ^ 2 + (f.deltaY toY) ^ 2) :=
    cos_atan2 (f.deltaY toY) (f.deltaX toX) hdz
  have hsin : Real.sin (atan2 (f.deltaY toY) (f.deltaX toX)) =
      f.deltaY toY / Real.sqrt ((f.deltaX toX) ^ 2 + (f.deltaY toY) ^ 2) :=
    sin_atan2 (f.deltaY toY) (f.deltaX toX)
  have hsignx : 0 ≤ Real.cos (atan2 (f.deltaY toY) (f.deltaX toX)) * v.x * f.deltaX toX := by
    rw [hcos]
    have harr : f.deltaX toX / Real.sqrt ((f.deltaX toX) ^ 2 + (f.deltaY toY) ^ 2) * v.x *
        f.deltaX toX =
        v.x * (f.deltaX toX) ^ 2 / Real.sqrt ((f.deltaX toX) ^ 2 + (f.deltaY toY) ^ 2) := by
      ring
    rw [harr]
    exact div_nonneg (mul_nonneg hvx (sq_nonneg _)) (Real.sqrt_nonneg _)
  have hsigny : 0 ≤ Real.sin (atan2 (f.deltaY toY) (f.deltaX toX)) * v.y * f.deltaY toY := by
    rw [hsin]
    have harr : f.deltaY toY / Real.sqrt ((f.deltaX toX) ^ 2 + (f.deltaY toY) ^ 2) * v.y *
        f.deltaY toY =
        v.y * (f.deltaY toY) ^ 2 / Real.sqrt ((f.deltaX toX) ^ 2 + (f.deltaY toY) ^ 2) := by
      ring
    rw [harr]
    exact div_nonneg (mul_nonneg hvy (sq_nonneg _)) (Real.sqrt_nonneg _)
  have hx := axis_between f.center.x (f.deltaX toX)
    (Real.cos (atan2 (f.deltaY toY) (f.deltaX toX)) * v.x) hsignx
  have hy := axis_between f.center.y (f.deltaY toY)
    (Real.sin (atan2 (f.deltaY toY) (f.deltaX toX)) * v.y) hsigny
  rw [hcx] at hx
  rw [hcy] at hy
  exact ⟨hx, hy⟩

/-- C6: in a moving branch (`speed > 0`, with or without acceleration, with
nonnegative stored velocity components and nonnegative `acceleration·elapsed`
when acceleration is configured), the new viewport center coordinate on each
axis lies between the pre-call center coordinate and the target center
coordinate, inclusive — an axis whose change would exceed the remaining
delta is snapped exactly to the target center value, so the camera never
overshoots the target center on either axis. -/
theorem no_axis_overshoot (f : Follow) (elapsed : ℝ) (t : Point)
    (hp : f.paused = false)
    (ht : f.effectiveTarget = some t)
    (hs : 0 < f.options.speed)
    (hvx : 0 ≤ f.velocity.x) (hvy : 0 ≤ f.velocity.y)
    (hae : ∀ a, f.options.acceleration = some a → 0 ≤ a * elapsed) :
    (min f.center.x (f.targetCenterX t.x) ≤ (f.update elapsed).center.x ∧
      (f.update elapsed).center.x ≤ max f.center.x (f.targetCenterX t.x)) ∧
    (min f.center.y (f.targetCenterY t.y) ≤ (f.update elapsed).center.y ∧
      (f.update elapsed).center.y ≤ max f.center.y (f.targetCenterY t.y)) := by
  rw [update_eq_moveStep f elapsed t hp ht]
  by_cases hdz : f.deltaX t.x ≠ 0 ∨ f.deltaY t.y ≠ 0
  · by_cases hacc : Truthy f.options.acceleration
    · cases hA : f.options.acceleration with
      | none => rw [hA] at hacc; exact False.elim hacc
      | some a =>
        rw [moveStep_eq_accelStep f elapsed t.x t.y hdz (ne_of_gt hs) hacc]
        have hae2 : 0 ≤ a * elapsed := hae a hA
        by_cases hfar : Real.sqrt ((f.deltaX t.x) ^ 2 + (f.deltaY t.y) ^ 2) >
            (f.velocity.x ^ 2 + f.velocity.y ^ 2) / (2 * a)
        · rw [accelStep_far f elapsed t.x t.y a hA (ne_of_gt (sqrt_delta_pos hdz)) hfar]
          exact applyVelocity_between f t.x t.y _ hdz
            (le_min (add_nonneg hvx hae2) hs.le)
            (le_min (add_nonneg hvy hae2) hs.le)
        · rw [accelStep_near f elapsed t.x t.y a hA (ne_of_gt (sqrt_delta_pos hdz)) hfar]
          exact applyVelocity_between f t.x t.y _ hdz
            (le_max_right _ _) (le_max_right _ _)
    · rw [moveStep_eq_constStep f elapsed t.x t.y hdz (ne_of_gt hs) hacc, constStep_eq]
      exact applyVelocity_between f t.x t.y { x := f.options.speed, y := f.options.speed }
        hdz hs.le hs.le
  · rw [moveStep_of_zero_delta f elapsed t.x t.y hdz]
    push_neg at hdz
    have htcx : f.targetCenterX t.x = f.center.x := by
      have := hdz.1
      unfold Follow.deltaX at this
      linarith
    have htcy : f.targetCenterY t.y = f.center.y := by
      have := hdz.2
      unfold Follow.deltaY at this
      linarith
    rw [htcx, htcy]
    simp [Follow.noUpdate]

theorem no_axis_overshoot_witness :
    fConst.paused = false ∧
    fConst.effectiveTarget = some { x := 100, y := 0 } ∧
    0 < fConst.options.speed ∧ 0 ≤ fConst.velocity.x ∧ 0 ≤ fConst.velocity.y ∧
    (∀ a, fConst.options.acceleration = some a → 0 ≤ a * 1) ∧
    ((min fConst.center.x (fConst.targetCenterX 100) ≤ (fConst.update 1).center.x ∧
      (fConst.update 1).center.x ≤ max fConst.center.x (fConst.targetCenterX 100)) ∧
     (min fConst.center.y (fConst.targetCenterY 0) ≤ (fConst.update 1).center.y ∧
      (fConst.update 1).center.y ≤ max fConst.center.y (fConst.targetCenterY 0))) := by
  have hET : fConst.effectiveTarget = some { x := 100, y := 0 } :=
    effectiveTarget_no_radius fConst (fun hc => hc rfl)
  have hae : ∀ a, fConst.options.acceleration = some a → 0 ≤ a * 1 :=
    fun a h => Option.noConfusion h
  exact ⟨rfl, hET, (by norm_num : (0:ℝ) < 5), le_refl 0, le_refl 0, hae,
    no_axis_overshoot fConst 1 { x := 100, y := 0 } rfl hET ((by norm_num : (0:ℝ) < 5))
      (le_refl 0) (le_refl 0) hae⟩

theorem fClamp_deadZoneDistance : fClamp.deadZoneDistance = 100 := by
  have h1 : fClamp.deadZoneDistance = Real.sqrt ((100:ℝ) ^ 2) := by
    unfold Follow.deadZoneDistance Follow.followPointWorld fClamp
    norm_num
  rw [h1, Real.sqrt_sq (by norm_num : (0:ℝ) ≤ 100)]

/-- C3 (counterexample): with follow point `(0, 0)`, target `(100, 0)` and
radius 10, the claim says the effective target is the point exactly 10 units
from the follow point along the bearing, i.e. `(10, 0)`; the code instead
pulls the raw target back by 10 units, producing `(90, 0)`. -/
theorem dead_zone_clamp_counterexample :
    fClamp.effectiveTarget = some { x := 90, y := 0 } ∧
    fClamp.effectiveTarget ≠ some { x := 10, y := 0 } := by
  have harg : atan2 ((0:ℝ)) ((100:ℝ)) = 0 := by
    unfold atan2
    have hre : (⟨100, 0⟩ : ℂ) = ((100:ℝ) : ℂ) := Complex.ext rfl rfl
    rw [hre]
    exact Complex.arg_ofReal_of_nonneg (by norm_num)
  have hET := effectiveTarget_outside fClamp 10 rfl (by norm_num)
    (by rw [fClamp_deadZoneDistance]; norm_num)
  have hfpw : fClamp.followPointWorld = { x := 0, y := 0 } := rfl
  have htX : fClamp.targetX = 100 := rfl
  have htY : fClamp.targetY = 0 := rfl
  rw [hfpw, htX, htY] at hET
  norm_num at hET
  rw [harg, Real.cos_zero, Real.sin_zero] at hET
  norm_num at hET
  refine ⟨hET, ?_⟩
  rw [hET]
  intro hc
  have hx := congrArg Point.x (Option.some.inj hc)
  norm_num at hx

/-- C3 (amended): when `radius > 0` and the target is strictly outside the
dead zone, the effective target is the raw target position pulled back
exactly `radius` units toward the follow point along the bearing: it lies at
distance `radius` from the raw target, hence at distance
`distance − radius` from the world follow point — not at distance `radius`
from the follow point as the claim states. -/
theorem dead_zone_clamp_pullback (f : Follow) (r : ℝ)
    (hr : f.options.radius = some r) (hr0 : 0 < r)
    (hout : r < f.deadZoneDistance) :
    ∃ p : Point, f.effectiveTarget = some p ∧
      Real.sqrt ((p.x - f.targetX) ^ 2 + (p.y - f.targetY) ^ 2) = r ∧
      Real.sqrt ((p.x - f.followPointWorld.x) ^ 2 + (p.y - f.followPointWorld.y) ^ 2) =
        f.deadZoneDistance - r := by
  have hdd : f.deadZoneDistance =
      Real.sqrt ((f.targetX - f.followPointWorld.x) ^ 2 +
        (f.targetY - f.followPointWorld.y) ^ 2) := by
    unfold Follow.deadZoneDistance
    congr 1
    ring
  have hd0 : 0 < Real.sqrt ((f.targetX - f.followPointWorld.x) ^ 2 +
      (f.targetY - f.followPointWorld.y) ^ 2) := by
    rw [← hdd]
    exact lt_trans hr0 hout
  have hdne := ne_of_gt hd0
  have hnz : f.targetX - f.followPointWorld.x ≠ 0 ∨ f.targetY - f.followPointWorld.y ≠ 0 := by
    by_contra hcon
    push_neg at hcon
    obtain ⟨h1, h2⟩ := hcon
    rw [h1, h2] at hd0
    norm_num [Real.sqrt_zero] at hd0
  have hcos : Real.cos (atan2 (f.targetY - f.followPointWorld.y)
      (f.targetX - f.followPointWorld.x)) =
      (f.targetX - f.followPointWorld.x) /
        Real.sqrt ((f.targetX - f.followPointWorld.x) ^ 2 +
          (f.targetY - f.followPointWorld.y) ^ 2) :=
    cos_atan2 (f.targetY - f.followPointWorld.y) (f.targetX - f.followPointWorld.x) hnz
  have hsin : Real.sin (atan2 (f.targetY - f.followPointWorld.y)
      (f.targetX - f.followPointWorld.x)) =
      (f.targetY - f.followPointWorld.y) /
        Real.sqrt ((f.targetX - f.followPointWorld.x) ^ 2 +
          (f.targetY - f.followPointWorld.y) ^ 2) :=
    sin_atan2 (f.targetY - f.followPointWorld.y) (f.targetX - f.followPointWorld.x)
  have hDx : f.targetX - f.followPointWorld.x =
      Real.cos (atan2 (f.targetY - f.followPointWorld.y)
        (f.targetX - f.followPointWorld.x)) *
      Real.sqrt ((f.targetX - f.followPointWorld.x) ^ 2 +
        (f.targetY - f.followPointWorld.y) ^ 2) := by
    rw [hcos]
    exact (div_mul_cancel₀ _ hdne).symm
  have hDy : f.targetY - f.followPointWorld.y =
      Real.sin (atan2 (f.targetY - f.followPointWorld.y)
        (f.targetX - f.followPointWorld.x)) *
      Real.sqrt ((f.targetX - f.followPointWorld.x) ^ 2 +
        (f.targetY - f.followPointWorld.y) ^ 2) := by
    rw [hsin]
    exact (div_mul_cancel₀ _ hdne).symm
  refine ⟨_, effectiveTarget_outside f r hr (ne_of_gt hr0) hout, ?_, ?_⟩
  · show Real.sqrt
      ((f.targetX - Real.cos (atan2 (f.targetY - f.followPointWorld.y)
          (f.targetX - f.followPointWorld.x)) * r - f.targetX) ^ 2 +
       (f.targetY - Real.sin (atan2 (f.targetY - f.followPointWorld.y)
          (f.targetX - f.followPointWorld.x)) * r - f.targetY) ^ 2) = r
    have e1 : (f.targetX - Real.cos (atan2 (f.targetY - f.followPointWorld.y)
          (f.targetX - f.followPointWorld.x)) * r - f.targetX) ^ 2 +
        (f.targetY - Real.sin (atan2 (f.targetY - f.followPointWorld.y)
          (f.targetX - f.followPointWorld.x)) * r - f.targetY) ^ 2 =
        (Real.sin (atan2 (f.targetY - f.followPointWorld.y)
          (f.targetX - f.followPointWorld.x)) ^ 2 +
         Real.cos (atan2 (f.targetY - f.followPointWorld.y)
          (f.targetX - f.followPointWorld.x)) ^ 2) * r ^ 2 := by
      ring
    rw [e1, Real.sin_sq_add_cos_sq, one_mul, Real.sqrt_sq hr0.le]
  · show Real.sqrt
      ((f.targetX - Real.cos (atan2 (f.targetY - f.followPointWorld.y)
          (f.targetX - f.followPointWorld.x)) * r - f.followPointWorld.x) ^ 2 +
       (f.targetY - Real.sin (atan2 (f.targetY - f.followPointWorld.y)
          (f.targetX - f.followPointWorld.x)) * r - f.followPointWorld.y) ^ 2) =
      f.deadZoneDistance - r
    have e2 : f.targetX - Real.cos (atan2 (f.targetY - f.followPointWorld.y)
          (f.targetX - f.followPointWorld.x)) * r - f.followPointWorld.x =
        Real.cos (atan2 (f.targetY - f.followPointWorld.y)
          (f.targetX - f.followPointWorld.x)) *
        (Real.sqrt ((f.targetX - f.followPointWorld.x) ^ 2 +
          (f.targetY - f.followPointWorld.y) ^ 2) - r) := by
      linear_combination hDx
    have e3 : f.targetY - Real.sin (atan2 (f.targetY - f.followPointWorld.y)
          (f.targetX - f.followPointWorld.x)) * r - f.followPointWorld.y =
        Real.sin (atan2 (f.targetY - f.followPointWorld.y)
          (f.targetX - f.followPointWorld.x)) *
        (Real.sqrt ((f.targetX - f.followPointWorld.x) ^ 2 +
          (f.targetY - f.followPointWorld.y) ^ 2) - r) := by
      linear_combination hDy
    rw [e2, e3]
    have e4 : (Real.cos (atan2 (f.targetY - f.followPointWorld.y)
          (f.targetX - f.followPointWorld.x)) *
        (Real.sqrt ((f.targetX - f.followPointWorld.x) ^ 2 +
          (f.targetY - f.followPointWorld.y) ^ 2) - r)) ^ 2 +
        (Real.sin (atan2 (f.targetY - f.followPointWorld.y)
          (f.targetX - f.followPointWorld.x)) *
        (Real.sqrt ((f.targetX - f.followPointWorld.x) ^ 2 +
          (f.targetY - f.followPointWorld.y) ^ 2) - r)) ^ 2 =
        (Real.sin (atan2 (f.targetY - f.followPointWorld.y)
          (f.targetX - f.followPointWorld.x)) ^ 2 +
         Real.cos (atan2 (f.targetY - f.followPointWorld.y)
          (f.targetX - f.followPointWorld.x)) ^ 2) *
        (Real.sqrt ((f.targetX - f.followPointWorld.x) ^ 2 +
          (f.targetY - f.followPointWorld.y) ^ 2) - r) ^ 2 := by
      ring
    rw [e4, Real.sin_sq_add_cos_sq, one_mul, Real.sqrt_sq, hdd]
    rw [← hdd]
    exact sub_nonneg.mpr (le_of_lt (hdd ▸ hout))

theorem dead_zone_clamp_pullback_witness :
    fClamp.options.radius = some 10 ∧ (0:ℝ) < 10 ∧ 10 < fClamp.deadZoneDistance ∧
    (∃ p : Point, fClamp.effectiveTarget = some p ∧
      Real.sqrt ((p.x - fClamp.targetX) ^ 2 + (p.y - fClamp.targetY) ^ 2) = 10 ∧
      Real.sqrt ((p.x - fClamp.followPointWorld.x) ^ 2 +
        (p.y - fClamp.followPointWorld.y) ^ 2) = fClamp.deadZoneDistance - 10) := by
  have hout : (10:ℝ) < fClamp.deadZoneDistance := by
    rw [fClamp_deadZoneDistance]; norm_num
  exact ⟨rfl, by norm_num, hout,
    dead_zone_clamp_pullback fClamp 10 rfl (by norm_num) hout⟩

end PixiFollow
